import Mathlib

/-!
# Verification of `vraw_convert` (`src/processing.rs`)

A shallow embedding of `convert_vraw_to_mp4` from `src/src/processing.rs`.

Modelling decisions:

* The index reader and frame parser live in `crate::parser`, which is not part
  of the core (the spec treats them as supplied capabilities).  A parsed frame
  is a `RawFrame`; the input to the conversion is modelled as the list of
  per-entry parse results, `List (Option RawFrame)` — `none` models a
  `parse_raw_frame` failure for that index entry.  Parsing is deterministic
  (each entry is located by its own offset/length), so both passes over the
  entry list observe the same parse results.
* The `mp4` crate muxer is an external collaborator; its operations are
  modelled as always succeeding and are recorded, in call order, in an event
  trace (`ConvEvent`), together with the input-open, index-read and
  output-creation side effects of the conversion itself.
* Rust's `f64` arithmetic in the duration computation is idealised as exact
  rational arithmetic; `.round()` is round-half-away-from-zero, which on the
  non-negative deltas here coincides with Mathlib's `round` (round half up).
  The `as u32` cast of the rounded value saturates, as float-to-int `as`
  casts do in Rust.
* Timestamps are natural numbers; `frame.timestamp - last_timestamp` uses
  truncated subtraction (the claims only concern non-decreasing timestamps).
* Paths are modelled as lists of components (relative paths); `Path::ancestors`
  of `[a, b, c, f]` yields `[a,b,c,f], [a,b,c], [a,b], [a], []`, so
  `.ancestors().nth(2)` exists iff the path has at least two components and
  then equals the list with its last two components dropped.  A failing
  `unwrap` in the output-name derivation is modelled as `ConvResult.panic`.
-/

/-- Frame format tag.  Modelled from the spec: `VideoCaptureFormat` lives in
`crate::parser`, which is not under `src/`; the spec (§3) gives the variants
H264, H265, Stats and an "Other/Unsupported" catch-all (the `_` arm of the
`match` in `processing.rs`). -/
inductive VideoCaptureFormat
  | H264
  | H265
  | Stats
  | Other
  deriving DecidableEq, Repr

/-- One parsed frame.  Modelled from the spec: the frame record produced by
`parse_raw_frame` (in `crate::parser`, not under `src/`) has a format tag, an
integer capture-clock timestamp and the raw payload bytes (§3 "Frame"). -/
structure RawFrame where
  format : VideoCaptureFormat
  timestamp : Nat
  raw_data : List Nat
  deriving DecidableEq, Repr

/-- Track configuration handed to `Mp4Writer::add_track` (from
`MediaConfig::HevcConfig(default)` resp. `MediaConfig::AvcConfig{..}` in
`processing.rs`). -/
inductive TrackConfig
  | hevcConfig
  | avcConfig (width height : Nat) (seq_param_set pic_param_set : List Nat)
  deriving DecidableEq, Repr

/-- The fixed placeholder SPS bytes from `processing.rs` line 86. -/
def newsps : List Nat := [0x00, 0x00, 0x00, 0x01, 0x67, 0x42, 0x00, 0x0a, 0xf8, 0x41, 0xa2]

/-- The fixed placeholder PPS bytes from `processing.rs` line 87. -/
def newpps : List Nat := [0x00, 0x00, 0x00, 0x01, 0x68, 0xce, 0x38, 0x80]

/-- An output sample as built in the emission loop of `processing.rs`
(lines 115–121). -/
structure Mp4Sample where
  start_time : Nat
  duration : Nat
  rendering_offset : Int
  is_sync : Bool
  bytes : List Nat
  deriving DecidableEq, Repr

/-- `(delta as f64 * 1e-6).round() as u32` from `processing.rs` line 114/117,
with `f64` idealised as exact rational arithmetic and the float-to-`u32`
`as` cast saturating at `u32::MAX`.  `(2 * delta + 1000000) / 2000000` is
exactly round-half-up of `delta * 1e-6` (Rust rounds half away from zero,
which agrees on these non-negative values); the lemma
`sampleDuration_eq_round` below states this in terms of Mathlib's `round`
on `ℚ`. -/
def sampleDuration (delta : Nat) : Nat :=
  min ((2 * delta + 1000000) / 2000000) 4294967295

/-- Side effects of one `convert_vraw_to_mp4` run, in the order they are
performed: opening the input, reading the index, creating the destination
file, and the four muxer operations of the `mp4` crate. -/
inductive ConvEvent
  | openInput
  | readIndex
  | createOutput (path : String)
  | muxStart
  | addTrack (cfg : TrackConfig)
  | writeSample (trackId : Nat) (sample : Mp4Sample)
  | muxEnd
  deriving DecidableEq, Repr

/-- Result of a run: normal `Ok(())`, an `Err(msg)`, or a Rust panic (the
`unwrap()` calls in the output-name derivation). -/
inductive ConvResult
  | ok
  | err (msg : String)
  | panic
  deriving DecidableEq, Repr

/-- One step of suffix testing on character lists: `pat` is a suffix of `s`
iff `s` ends with exactly `pat`'s characters. -/
def listEndsWith (s pat : List Char) : Bool :=
  pat == s.drop (s.length - pat.length)

/-- `trim_end_matches` removes all trailing occurrences of the pattern;
recursion is by fuel (the string length strictly decreases at each strip,
so a fuel of `s.length` suffices). -/
def trimEndList (pat : List Char) : Nat → List Char → List Char
  | 0, s => s
  | fuel + 1, s =>
    if listEndsWith s pat then
      trimEndList pat fuel (s.take (s.length - pat.length))
    else s

/-- `str.trim_end_matches(pat)` on strings, via their character lists. -/
def trimEndMatches (pat : String) (fuel : Nat) (s : String) : String :=
  ⟨trimEndList pat.data fuel s.data⟩

/-- The output-file-name closure of `processing.rs` lines 19–37: take the
input path's `file_name()` (panic if absent), strip all trailing `".vraw"`
occurrences, append `_`, the formatted local time and `.mp4`, and join the
result onto `ancestors().nth(2)` of the input path (panic if the path has
fewer than two components).  Returns `(output directory components, file
name)`, or `none` for a panic. -/
def deriveOutputPath (components : List String) (now : String) :
    Option (List String × String) :=
  match components.getLast? with
  | none => none
  | some base =>
    let name := trimEndMatches ".vraw" base.length base ++ "_" ++ now ++ ".mp4"
    if 2 ≤ components.length then
      some (components.dropLast.dropLast, name)
    else none

/-- Join path components into a display path (for the `createOutput` event). -/
def joinPath (p : List String × String) : String :=
  String.intercalate "/" (p.1 ++ [p.2])

/-- `output.unwrap_or_else(|| ...)` from `processing.rs` line 19: the explicit
output path when supplied, otherwise the derived one (`none` = panic). -/
def resolveOutput (output : Option String) (components : List String)
    (now : String) : Option String :=
  match output with
  | some o => some o
  | none => (deriveOutputPath components now).map joinPath

/-- The track-selection loop of `processing.rs` lines 68–103: walk the parse
results in entry order; a parse failure is the error `"vraw_convert: unable
to read frame"`; `H265`/`H264` install a track and record the frame's
timestamp as the baseline, then `break`; `Stats` continues; any other format
is the error `"VideoCaptureFormat not supported"`.  `ok none` is the loop
falling through the end of the list without a `break` (no track installed,
`last_timestamp` still `0`). -/
def selectTrack : List (Option RawFrame) → Except String (Option (TrackConfig × Nat))
  | [] => .ok none
  | none :: _ => .error "vraw_convert: unable to read frame"
  | some frame :: rest =>
    match frame.format with
    | .H265 => .ok (some (.hevcConfig, frame.timestamp))
    | .H264 => .ok (some (.avcConfig 0 0 newsps newpps, frame.timestamp))
    | .Stats => selectTrack rest
    | .Other => .error "VideoCaptureFormat not supported"

/-- The sample-emission loop of `processing.rs` lines 105–134: walk the parse
results from the beginning again; a parse failure `break`s (end of
recording); `Stats` frames are skipped; every other frame becomes a sample
whose start time is the frame's timestamp and whose duration is computed
from the previous non-Stats timestamp, which then becomes the new baseline. -/
def emitSamples : List (Option RawFrame) → Nat → List Mp4Sample
  | [], _ => []
  | none :: _, _ => []
  | some frame :: rest, lastTimestamp =>
    if frame.format = .Stats then
      emitSamples rest lastTimestamp
    else
      { start_time := frame.timestamp
        duration := sampleDuration (frame.timestamp - lastTimestamp)
        rendering_offset := 0
        is_sync := false
        bytes := frame.raw_data } :: emitSamples rest frame.timestamp

/-- Shallow embedding of `convert_vraw_to_mp4` (`processing.rs` lines 16–141).
`frames` is the list of per-entry parse results of the index entries (in
index order), `output` the optional explicit output path, `components` the
input path's components and `now` the formatted local time.  Returns the
run's result together with the trace of side effects, in order. -/
def convert_vraw_to_mp4 (frames : List (Option RawFrame)) (output : Option String)
    (components : List String) (now : String) : ConvResult × List ConvEvent :=
  match resolveOutput output components now with
  | none => (.panic, [.openInput])
  | some outPath =>
    if frames.isEmpty then
      (.err "vraw_convert: index contains no frames", [.openInput, .readIndex])
    else
      match selectTrack frames with
      | .error e =>
        (.err e, [.openInput, .readIndex, .createOutput outPath, .muxStart])
      | .ok sel =>
        let trackEvents : List ConvEvent :=
          match sel with
          | some (cfg, _) => [.addTrack cfg]
          | none => []
        let lastTimestamp : Nat :=
          match sel with
          | some (_, ts) => ts
          | none => 0
        let samples := emitSamples frames lastTimestamp
        (.ok,
          [.openInput, .readIndex, .createOutput outPath, .muxStart] ++
            trackEvents ++ samples.map (fun s => .writeSample 1 s) ++ [.muxEnd])

/-- Is this event an `add_track` call? -/
def ConvEvent.isAddTrack : ConvEvent → Bool
  | .addTrack _ => true
  | _ => false

/-- Is this event a `write_sample` call? -/
def ConvEvent.isWriteSample : ConvEvent → Bool
  | .writeSample _ _ => true
  | _ => false

/-- Does this parse result hold a Stats frame? -/
def isStatsEntry : Option RawFrame → Bool
  | some fr => fr.format = .Stats
  | none => false

/-- The timestamps of the frames the emission loop turns into samples: the
non-Stats frames of the longest prefix of parse successes, in order. -/
def videoTimestamps : List (Option RawFrame) → List Nat
  | [] => []
  | none :: _ => []
  | some frame :: rest =>
    if frame.format = .Stats then videoTimestamps rest
    else frame.timestamp :: videoTimestamps rest

/-- Does this parse result hold a supported video frame (H264 or H265)? -/
def isVideoEntry : Option RawFrame → Bool
  | some fr => fr.format = .H264 || fr.format = .H265
  | none => false

/-- Does this parse result hold a frame of the unsupported catch-all
format? -/
def isOtherEntry : Option RawFrame → Bool
  | some fr => fr.format = .Other
  | none => false

/-- The output directory under the literal reading of the claim/spec wording
"two directory levels above the input file's own directory": the input
file's own directory is `components.dropLast`, and two levels above it
drops two more components.  (Stated from the spec's words only, to compare
against `deriveOutputPath`, which embeds the code.) -/
def claimOutputDir (components : List String) : List String :=
  components.dropLast.dropLast.dropLast

/-! ## Helper lemmas -/

/-- The Nat-arithmetic duration is exactly `round (delta * 1e-6)` over `ℚ`,
saturated at `u32::MAX`. -/
theorem sampleDuration_eq_round (delta : Nat) :
    sampleDuration delta =
      min (round ((delta : ℚ) * (1 / 1000000))).toNat 4294967295 := by
  have hq : (delta : ℚ) * (1 / 1000000) + 1 / 2 =
      ((2 * delta + 1000000 : ℕ) : ℚ) / ((2000000 : ℕ) : ℚ) := by
    push_cast
    ring
  rw [round_eq, hq, Int.floor_toNat, Nat.floor_div_eq_div, sampleDuration]

/-- When every entry parses and none has the unsupported format, but some
entry is a video frame, the track-selection loop breaks with a track. -/
theorem selectTrack_isOkSome (frames : List (Option RawFrame))
    (h1 : ∀ x ∈ frames, ∃ fr, x = some fr ∧ fr.format ≠ .Other)
    (h2 : ∃ x ∈ frames, ∃ fr, x = some fr ∧
      (fr.format = .H264 ∨ fr.format = .H265)) :
    ∃ cfg ts, selectTrack frames = .ok (some (cfg, ts)) := by
  induction frames with
  | nil => simp at h2
  | cons x rest ih =>
    obtain ⟨fr, rfl, hother⟩ := h1 x (List.mem_cons_self x rest)
    cases hfmt : fr.format with
    | H265 => exact ⟨.hevcConfig, fr.timestamp, by simp [selectTrack, hfmt]⟩
    | H264 =>
      exact ⟨.avcConfig 0 0 newsps newpps, fr.timestamp, by simp [selectTrack, hfmt]⟩
    | Other => exact absurd hfmt hother
    | Stats =>
      have h2' : ∃ x ∈ rest, ∃ fr, x = some fr ∧
          (fr.format = .H264 ∨ fr.format = .H265) := by
        obtain ⟨y, hy, g, rfl, hg⟩ := h2
        rcases List.mem_cons.mp hy with hy | hy
        · cases hy
          rcases hg with hg | hg <;> rw [hfmt] at hg <;> cases hg
        · exact ⟨some g, hy, g, rfl, hg⟩
      obtain ⟨cfg, ts, hsel⟩ :=
        ih (fun y hy => h1 y (List.mem_cons_of_mem _ hy)) h2'
      exact ⟨cfg, ts, by simpa [selectTrack, hfmt] using hsel⟩

/-- When every entry parses, the emission loop emits one sample per
non-Stats entry. -/
theorem emitSamples_length (frames : List (Option RawFrame))
    (h : ∀ x ∈ frames, x.isSome) (b : Nat) :
    (emitSamples frames b).length = frames.length - frames.countP isStatsEntry := by
  induction frames generalizing b with
  | nil => rfl
  | cons x rest ih =>
    match x, h x (List.mem_cons_self x rest) with
    | some fr, _ =>
      have hrest := fun y hy => h y (List.mem_cons_of_mem _ hy)
      have hle := List.countP_le_length (p := isStatsEntry) (l := rest)
      by_cases hfmt : fr.format = .Stats
      · rw [show emitSamples (some fr :: rest) b = emitSamples rest b by
            simp [emitSamples, hfmt],
          ih hrest b]
        simp [List.countP_cons, isStatsEntry, hfmt]
      · rw [show emitSamples (some fr :: rest) b =
            { start_time := fr.timestamp
              duration := sampleDuration (fr.timestamp - b)
              rendering_offset := 0
              is_sync := false
              bytes := fr.raw_data } :: emitSamples rest fr.timestamp by
            simp [emitSamples, hfmt]]
        have hfmt' : isStatsEntry (some fr) = false := by
          simp [isStatsEntry, hfmt]
        simp [List.length_cons, ih hrest fr.timestamp,
          List.countP_cons, hfmt']
        omega

/-- If the selection loop fell through without a track, every entry is a
Stats frame, so the emission loop emits nothing. -/
theorem emitSamples_eq_nil_of_selectTrack_none (frames : List (Option RawFrame))
    (h : selectTrack frames = .ok none) (b : Nat) :
    emitSamples frames b = [] := by
  induction frames generalizing b with
  | nil => rfl
  | cons x rest ih =>
    match x with
    | none => simp [selectTrack] at h
    | some fr =>
      cases hfmt : fr.format with
      | H265 => rw [selectTrack, hfmt] at h; simp at h
      | H264 => rw [selectTrack, hfmt] at h; simp at h
      | Other => rw [selectTrack, hfmt] at h; simp at h
      | Stats =>
        rw [selectTrack, hfmt] at h
        simp only [emitSamples, hfmt, if_pos rfl]
        exact ih h b

/-- The emission loop only ever looks at the longest prefix of parse
successes: the first parse failure ends it. -/
theorem emitSamples_takeWhile (frames : List (Option RawFrame)) (b : Nat) :
    emitSamples frames b = emitSamples (frames.takeWhile Option.isSome) b := by
  induction frames generalizing b with
  | nil => rfl
  | cons x rest ih =>
    match x with
    | none => rfl
    | some fr =>
      rw [show (some fr :: rest).takeWhile Option.isSome =
          some fr :: rest.takeWhile Option.isSome from rfl]
      by_cases hfmt : fr.format = .Stats
      · simp only [emitSamples, hfmt, if_pos rfl]
        exact ih b
      · simp only [emitSamples, if_neg hfmt]
        rw [ih fr.timestamp]

/-- Timing of the emission loop: its samples' `(start_time, duration)` pairs
are exactly the emitted timestamps zipped against their predecessors (with
the selection baseline in front), the start time being the later timestamp
of each pair and the duration being derived from the gap to the earlier
one. -/
theorem emitSamples_timing (frames : List (Option RawFrame)) (b : Nat) :
    (emitSamples frames b).map (fun s => (s.start_time, s.duration)) =
      ((videoTimestamps frames).zip (b :: videoTimestamps frames)).map
        (fun p => (p.1, sampleDuration (p.1 - p.2))) := by
  induction frames generalizing b with
  | nil => rfl
  | cons x rest ih =>
    match x with
    | none => rfl
    | some fr =>
      by_cases hfmt : fr.format = .Stats
      · simp only [emitSamples, videoTimestamps, hfmt, if_pos rfl]
        exact ih b
      · simp only [emitSamples, videoTimestamps, if_neg hfmt, List.zip_cons_cons,
          List.map_cons]
        exact congrArg _ (ih fr.timestamp)

/-- When the selection loop breaks on a video frame with timestamp `ts`, the
emission loop's first sample is that very frame again, with start time `ts`
and duration `0` (its delta against the baseline `ts` is zero). -/
theorem emitSamples_head_of_selectTrack_some (frames : List (Option RawFrame))
    (cfg : TrackConfig) (ts : Nat)
    (h : selectTrack frames = .ok (some (cfg, ts))) :
    ∃ s rest, emitSamples frames ts = s :: rest ∧
      s.start_time = ts ∧ s.duration = 0 := by
  induction frames with
  | nil => simp [selectTrack] at h
  | cons x rest ih =>
    match x with
    | none => simp [selectTrack] at h
    | some fr =>
      cases hfmt : fr.format with
      | H265 =>
        rw [selectTrack, hfmt] at h
        simp only [Except.ok.injEq, Option.some.injEq, Prod.mk.injEq] at h
        obtain ⟨-, hts⟩ := h
        refine ⟨⟨fr.timestamp, sampleDuration (fr.timestamp - ts), 0, false,
          fr.raw_data⟩, emitSamples rest fr.timestamp,
          by simp [emitSamples, hfmt], hts, ?_⟩
        simp [hts, sampleDuration]
      | H264 =>
        rw [selectTrack, hfmt] at h
        simp only [Except.ok.injEq, Option.some.injEq, Prod.mk.injEq] at h
        obtain ⟨-, hts⟩ := h
        refine ⟨⟨fr.timestamp, sampleDuration (fr.timestamp - ts), 0, false,
          fr.raw_data⟩, emitSamples rest fr.timestamp,
          by simp [emitSamples, hfmt], hts, ?_⟩
        simp [hts, sampleDuration]
      | Stats =>
        rw [selectTrack, hfmt] at h
        obtain ⟨s, tail, heq, hstart, hdur⟩ := ih h
        exact ⟨s, tail, by simpa [emitSamples, hfmt] using heq, hstart, hdur⟩
      | Other => rw [selectTrack, hfmt] at h; simp at h

/-- An unsupported-format frame reached by the selection scan (every earlier
entry parses to a Stats frame) makes the scan abort with the
unsupported-format error. -/
theorem selectTrack_error_of_other (pre rest : List (Option RawFrame))
    (fr : RawFrame) (hfr : fr.format = .Other)
    (hpre : ∀ x ∈ pre, ∃ g, x = some g ∧ g.format = .Stats) :
    selectTrack (pre ++ some fr :: rest) =
      .error "VideoCaptureFormat not supported" := by
  induction pre with
  | nil => simp [selectTrack, hfr]
  | cons x pre ih =>
    obtain ⟨g, rfl, hg⟩ := hpre x (List.mem_cons_self x pre)
    rw [List.cons_append, selectTrack, hg]
    exact ih (fun y hy => hpre y (List.mem_cons_of_mem _ hy))

/-! ## Claims -/

/-- C1: the claim says an index with frames but no H264/H265 frame (e.g. all
Stats) must fail with the no-video-track condition and must not fall through
the selection scan to the muxer finalize step without a track.  The code does
exactly what the claim forbids: on an all-Stats index the selection loop
falls through silently, no track is ever added, no no-video-track error
exists anywhere in the code, and the run finalizes the muxer and returns
`Ok` — this theorem evaluates the run at such an input. -/
theorem C1_all_stats_falls_through_to_finalize :
    convert_vraw_to_mp4 [some ⟨.Stats, 0, []⟩] (some "out.mp4") ["rec.vraw"] "T" =
      (.ok, [.openInput, .readIndex, .createOutput "out.mp4", .muxStart,
        .muxEnd]) ∧
    (convert_vraw_to_mp4 [some ⟨.Stats, 0, []⟩] (some "out.mp4") ["rec.vraw"]
      "T").2.countP ConvEvent.isAddTrack = 0 := by
  decide

/-- C6: an empty frame index fails with the dedicated empty-index error (not
a muxer error), before the destination file is created — the trace ends at
the index read, with no `createOutput` and no muxer event. -/
theorem C6_empty_index_fails_before_output_creation
    (output : Option String) (components : List String) (now p : String)
    (hres : resolveOutput output components now = some p) :
    convert_vraw_to_mp4 [] output components now =
      (.err "vraw_convert: index contains no frames", [.openInput, .readIndex]) := by
  simp [convert_vraw_to_mp4, hres]

/-- Witness for C6 at a concrete run. -/
theorem C6_witness :
    convert_vraw_to_mp4 [] (some "o.mp4") ["a", "rec.vraw"] "T" =
      (.err "vraw_convert: index contains no frames", [.openInput, .readIndex]) :=
  C6_empty_index_fails_before_output_creation (some "o.mp4") ["a", "rec.vraw"]
    "T" "o.mp4" rfl

/-- C9: with an explicitly supplied output path the whole run — result and
the full trace of muxer calls that determines the output container's bytes —
is a function of the input alone: the wall-clock argument is only consumed
by the file-name derivation, which an explicit output path bypasses. -/
theorem C9_explicit_output_is_clock_independent
    (frames : List (Option RawFrame)) (components : List String)
    (o now1 now2 : String) :
    convert_vraw_to_mp4 frames (some o) components now1 =
      convert_vraw_to_mp4 frames (some o) components now2 := rfl

/-- C10: whenever the selection loop broke on a video frame (timestamp `ts`),
the emission pass re-walks the whole entry list, so that same frame is
re-emitted as the very first output sample, with start time `ts` and
duration `0` (its delta against the baseline `ts` is zero). -/
theorem C10_selection_frame_reemitted_first
    (frames : List (Option RawFrame)) (output : Option String)
    (components : List String) (now p : String) (cfg : TrackConfig) (ts : Nat)
    (hres : resolveOutput output components now = some p)
    (hsel : selectTrack frames = .ok (some (cfg, ts))) :
    ∃ s samps,
      convert_vraw_to_mp4 frames output components now =
        (.ok,
          [.openInput, .readIndex, .createOutput p, .muxStart, .addTrack cfg] ++
            (s :: samps).map (fun q => ConvEvent.writeSample 1 q) ++ [.muxEnd]) ∧
      s.start_time = ts ∧ s.duration = 0 := by
  have hne : frames ≠ [] := by
    intro h
    rw [h, selectTrack] at hsel
    cases hsel
  obtain ⟨s, samps, hemit, hstart, hdur⟩ :=
    emitSamples_head_of_selectTrack_some frames cfg ts hsel
  refine ⟨s, samps, ?_, hstart, hdur⟩
  simp [convert_vraw_to_mp4, hres, hsel, hemit, List.isEmpty_eq_false.mpr hne]

/-- Witness for C10 at a concrete run. -/
theorem C10_witness :
    ∃ s samps,
      convert_vraw_to_mp4 [some ⟨.H265, 5, [1]⟩] (some "o.mp4") [] "T" =
        (.ok,
          [.openInput, .readIndex, .createOutput "o.mp4", .muxStart,
            .addTrack .hevcConfig] ++
            (s :: samps).map (fun q => ConvEvent.writeSample 1 q) ++ [.muxEnd]) ∧
      s.start_time = 5 ∧ s.duration = 0 :=
  C10_selection_frame_reemitted_first [some ⟨.H265, 5, [1]⟩] (some "o.mp4")
    [] "T" "o.mp4" .hevcConfig 5 rfl rfl

/-- Shape of the trace of a run that passes the selection loop: the fixed
prelude, the optional `add_track`, one `write_sample` per emitted sample in
order, then the finalize call. -/
theorem convert_trace_shape (frames : List (Option RawFrame))
    (output : Option String) (components : List String) (now p : String)
    (sel : Option (TrackConfig × Nat))
    (hres : resolveOutput output components now = some p)
    (hne : frames ≠ [])
    (hsel : selectTrack frames = .ok sel) :
    convert_vraw_to_mp4 frames output components now =
      (.ok,
        [.openInput, .readIndex, .createOutput p, .muxStart] ++
          (match sel with
            | some (cfg, _) => [ConvEvent.addTrack cfg]
            | none => []) ++
          (emitSamples frames
            (match sel with | some (_, ts) => ts | none => 0)).map
              (fun s => ConvEvent.writeSample 1 s) ++ [.muxEnd]) := by
  rcases sel with _ | ⟨cfg, ts⟩ <;>
    simp [convert_vraw_to_mp4, hres, hsel, List.isEmpty_eq_false.mpr hne]

/-- C7: a frame-parse failure during the sample-emission pass only terminates
the loop: the run still finalizes the muxer (last event is the finalize
call), returns success, and the samples written are exactly those of the
prefix of parse successes — the failure is never surfaced as an error. -/
theorem C7_parse_failure_is_normal_terminator
    (frames : List (Option RawFrame)) (output : Option String)
    (components : List String) (now p : String)
    (sel : Option (TrackConfig × Nat))
    (hres : resolveOutput output components now = some p)
    (hsel : selectTrack frames = .ok sel)
    (hfail : none ∈ frames) :
    (convert_vraw_to_mp4 frames output components now).1 = .ok ∧
    (convert_vraw_to_mp4 frames output components now).2.getLast? =
      some .muxEnd ∧
    (convert_vraw_to_mp4 frames output components now).2.countP
        ConvEvent.isWriteSample =
      (emitSamples (frames.takeWhile Option.isSome)
        (match sel with | some (_, ts) => ts | none => 0)).length := by
  have hne : frames ≠ [] := List.ne_nil_of_mem hfail
  rcases sel with _ | ⟨cfg, ts⟩ <;>
    (rw [convert_trace_shape frames output components now p _ hres hne hsel]
     exact ⟨rfl, by dsimp only; rw [List.getLast?_concat],
       by rw [← emitSamples_takeWhile]
          simp [List.countP_append, List.countP_map, Function.comp,
            ConvEvent.isWriteSample, List.countP_true]⟩)

/-- Witness for C7 at a concrete run: one H265 frame, then a parse failure. -/
theorem C7_witness :
    (convert_vraw_to_mp4 [some ⟨.H265, 0, []⟩, none] (some "o.mp4") [] "T").1 =
      .ok ∧
    (convert_vraw_to_mp4 [some ⟨.H265, 0, []⟩, none] (some "o.mp4") []
      "T").2.getLast? = some .muxEnd ∧
    (convert_vraw_to_mp4 [some ⟨.H265, 0, []⟩, none] (some "o.mp4") []
      "T").2.countP ConvEvent.isWriteSample =
      (emitSamples ([some ⟨.H265, 0, []⟩, none].takeWhile Option.isSome)
        (match (some (TrackConfig.hevcConfig, 0) : Option (TrackConfig × Nat))
          with | some (_, ts) => ts | none => 0)).length :=
  C7_parse_failure_is_normal_terminator [some ⟨.H265, 0, []⟩, none]
    (some "o.mp4") [] "T" "o.mp4" (some (.hevcConfig, 0)) rfl rfl
    (by decide)

/-- C2 counterexample, at the spec's own worked example
`[(H265, ts=0), (Stats, ts=5), (H265, ts=1000), (H265, ts=2000)]`: the claim
predicts `4 - 1 - 1 = 2` written samples ("frames minus Stats frames minus
the one consumed by track selection"), but the emission pass re-walks the
entry list from the beginning, so the track-selection frame is written too
and the run emits `3` samples. -/
theorem C2_counterexample :
    (convert_vraw_to_mp4
        [some ⟨.H265, 0, []⟩, some ⟨.Stats, 5, []⟩, some ⟨.H265, 1000, []⟩,
          some ⟨.H265, 2000, []⟩] (some "o.mp4") [] "T").1 = .ok ∧
    (convert_vraw_to_mp4
        [some ⟨.H265, 0, []⟩, some ⟨.Stats, 5, []⟩, some ⟨.H265, 1000, []⟩,
          some ⟨.H265, 2000, []⟩] (some "o.mp4") [] "T").2.countP
        ConvEvent.isWriteSample = 3 ∧
    (3 : Nat) ≠ 4 - 1 - 1 := by
  decide

/-- C2 as amended: for a non-empty, well-formed input (every entry parses and
no entry has an unsupported format) with at least one H264/H265 frame, the
conversion succeeds and the number of samples written equals the number of
frames minus the number of Stats frames — without the extra "minus one": the
frame consumed during track selection is emitted again by the emission
pass. -/
theorem C2_amended_sample_count (frames : List (Option RawFrame))
    (output : Option String) (components : List String) (now p : String)
    (hres : resolveOutput output components now = some p)
    (hparse : ∀ x ∈ frames, x.isSome = true)
    (hother : ∀ x ∈ frames, isOtherEntry x = false)
    (hvid : ∃ x ∈ frames, isVideoEntry x = true) :
    (convert_vraw_to_mp4 frames output components now).1 = .ok ∧
    (convert_vraw_to_mp4 frames output components now).2.countP
        ConvEvent.isWriteSample =
      frames.length - frames.countP isStatsEntry := by
  have h1 : ∀ x ∈ frames, ∃ fr, x = some fr ∧ fr.format ≠ .Other := by
    intro x hx
    match x, hparse x hx, hother x hx with
    | some fr, _, ho =>
      refine ⟨fr, rfl, ?_⟩
      simpa [isOtherEntry] using ho
  have h2 : ∃ x ∈ frames, ∃ fr, x = some fr ∧
      (fr.format = .H264 ∨ fr.format = .H265) := by
    obtain ⟨x, hx, hv⟩ := hvid
    match x, hv with
    | some fr, hv =>
      refine ⟨some fr, hx, fr, rfl, ?_⟩
      simpa [isVideoEntry] using hv
  obtain ⟨cfg, ts, hsel⟩ := selectTrack_isOkSome frames h1 h2
  have hne : frames ≠ [] := by
    rintro rfl
    simp at h2
  rw [convert_trace_shape frames output components now p _ hres hne hsel]
  refine ⟨rfl, ?_⟩
  rw [show (List.countP ConvEvent.isWriteSample
      (([ConvEvent.openInput, .readIndex, .createOutput p, .muxStart] ++
        [ConvEvent.addTrack cfg] ++
        (emitSamples frames ts).map (fun s => ConvEvent.writeSample 1 s) ++
        [ConvEvent.muxEnd])) = (emitSamples frames ts).length) from ?_,
    emitSamples_length frames hparse ts]
  simp [List.countP_append, List.countP_map, Function.comp,
    ConvEvent.isWriteSample, List.countP_true]

/-- Witness for C2 (amended) at a concrete run: the spec's example input. -/
theorem C2_witness :
    (convert_vraw_to_mp4
        [some ⟨.H265, 0, []⟩, some ⟨.Stats, 5, []⟩, some ⟨.H265, 1000, []⟩,
          some ⟨.H265, 2000, []⟩] (some "w.mp4") [] "T").1 = .ok ∧
    (convert_vraw_to_mp4
        [some ⟨.H265, 0, []⟩, some ⟨.Stats, 5, []⟩, some ⟨.H265, 1000, []⟩,
          some ⟨.H265, 2000, []⟩] (some "w.mp4") [] "T").2.countP
        ConvEvent.isWriteSample =
      [some (⟨.H265, 0, []⟩ : RawFrame), some ⟨.Stats, 5, []⟩,
        some ⟨.H265, 1000, []⟩, some ⟨.H265, 2000, []⟩].length -
      [some (⟨.H265, 0, []⟩ : RawFrame), some ⟨.Stats, 5, []⟩,
        some ⟨.H265, 1000, []⟩, some ⟨.H265, 2000, []⟩].countP isStatsEntry :=
  C2_amended_sample_count
    [some ⟨.H265, 0, []⟩, some ⟨.Stats, 5, []⟩, some ⟨.H265, 1000, []⟩,
      some ⟨.H265, 2000, []⟩] (some "w.mp4") [] "T" "w.mp4" rfl (by decide)
    (by decide) (by decide)

/-- C5 counterexample: on an index whose frames are all Stats, the run
completes with `Ok` and the muxer is finalized, yet zero tracks were added —
so "exactly one track is added in every run" is false. -/
theorem C5_counterexample :
    (convert_vraw_to_mp4 [some ⟨.Stats, 3, []⟩, some ⟨.Stats, 9, []⟩]
        (some "c5.mp4") [] "T").1 = .ok ∧
    (convert_vraw_to_mp4 [some ⟨.Stats, 3, []⟩, some ⟨.Stats, 9, []⟩]
        (some "c5.mp4") [] "T").2.countP ConvEvent.isAddTrack = 0 ∧
    ConvEvent.muxEnd ∈
      (convert_vraw_to_mp4 [some ⟨.Stats, 3, []⟩, some ⟨.Stats, 9, []⟩]
        (some "c5.mp4") [] "T").2 ∧
    (0 : Nat) ≠ 1 := by
  decide

/-- C5 as amended: in every run at most one track is added, and whenever a
`write_sample` call appears in the trace, an `add_track` call appears before
it (every trace prefix containing a `write_sample` already contains an
`add_track`) — no sample is ever written while zero tracks exist. -/
theorem C5_amended_track_before_samples (frames : List (Option RawFrame))
    (output : Option String) (components : List String) (now : String) :
    (convert_vraw_to_mp4 frames output components now).2.countP
        ConvEvent.isAddTrack ≤ 1 ∧
    ∀ k, (∃ tid s, ConvEvent.writeSample tid s ∈
        (convert_vraw_to_mp4 frames output components now).2.take k) →
      ∃ cfg, ConvEvent.addTrack cfg ∈
        (convert_vraw_to_mp4 frames output components now).2.take k := by
  rcases hres : resolveOutput output components now with _ | p
  · rw [show convert_vraw_to_mp4 frames output components now =
        (.panic, [.openInput]) by simp [convert_vraw_to_mp4, hres]]
    refine ⟨by decide, fun k ⟨tid, s, hmem⟩ => ?_⟩
    have := List.take_subset k _ hmem
    simp at this
  · by_cases hemp : frames = []
    · rw [show convert_vraw_to_mp4 frames output components now =
          (.err "vraw_convert: index contains no frames",
            [.openInput, .readIndex]) by
        simp [convert_vraw_to_mp4, hres, hemp]]
      refine ⟨by decide, fun k ⟨tid, s, hmem⟩ => ?_⟩
      have := List.take_subset k _ hmem
      simp at this
    · rcases hsel : selectTrack frames with e | sel
      · rw [show convert_vraw_to_mp4 frames output components now =
            (.err e, [.openInput, .readIndex, .createOutput p, .muxStart]) by
          simp [convert_vraw_to_mp4, hres, hsel,
            List.isEmpty_eq_false.mpr hemp]]
        refine ⟨by simp [List.countP_cons, ConvEvent.isAddTrack],
          fun k ⟨tid, s, hmem⟩ => ?_⟩
        have := List.take_subset k _ hmem
        simp at this
      · rcases sel with _ | ⟨cfg, ts⟩
        · rw [convert_trace_shape frames output components now p _ hres hemp
            hsel,
            emitSamples_eq_nil_of_selectTrack_none frames hsel]
          refine ⟨by simp [List.countP_cons, List.countP_append,
              ConvEvent.isAddTrack],
            fun k ⟨tid, s, hmem⟩ => ?_⟩
          have := List.take_subset k _ hmem
          simp at this
        · rw [convert_trace_shape frames output components now p _ hres hemp
            hsel]
          have hfront : ([ConvEvent.openInput, .readIndex, .createOutput p,
              .muxStart] ++ [ConvEvent.addTrack cfg] ++
              (emitSamples frames ts).map (fun s => ConvEvent.writeSample 1 s)
              ++ [ConvEvent.muxEnd]) =
              [ConvEvent.openInput, .readIndex, .createOutput p, .muxStart,
                .addTrack cfg] ++
              ((emitSamples frames ts).map (fun s => ConvEvent.writeSample 1 s)
                ++ [ConvEvent.muxEnd]) := by
            simp
          dsimp only
          rw [hfront]
          constructor
          · simp [List.countP_append, List.countP_cons, List.countP_map,
              Function.comp, ConvEvent.isAddTrack]
          · intro k hk
            obtain ⟨tid, s, hmem⟩ := hk
            rw [List.take_append_eq_append_take] at hmem ⊢
            rcases List.mem_append.mp hmem with hin | hin
            · have := List.take_subset k _ hin
              simp at this
            · have hnz : k - [ConvEvent.openInput, .readIndex,
                  .createOutput p, .muxStart, .addTrack cfg].length ≠ 0 := by
                intro h0
                rw [h0] at hin
                simp at hin
              have hk5 : 5 ≤ k := by
                simp only [List.length_cons, List.length_nil] at hnz ⊢
                omega
              refine ⟨cfg, List.mem_append_left _ ?_⟩
              rw [List.take_of_length_le (by simp; omega)]
              simp

/-- Witness for C5 (amended) at a concrete run with one written sample. -/
theorem C5_witness :
    (convert_vraw_to_mp4 [some ⟨.H265, 0, []⟩] (some "o5.mp4") [] "T").2.countP
        ConvEvent.isAddTrack ≤ 1 ∧
    ∃ cfg, ConvEvent.addTrack cfg ∈
      (convert_vraw_to_mp4 [some ⟨.H265, 0, []⟩] (some "o5.mp4") [] "T").2.take 6 :=
  ⟨(C5_amended_track_before_samples [some ⟨.H265, 0, []⟩] (some "o5.mp4") []
      "T").1,
    (C5_amended_track_before_samples [some ⟨.H265, 0, []⟩] (some "o5.mp4") []
      "T").2 6 ⟨1, ⟨0, 0, 0, false, []⟩, by decide⟩⟩

/-- C3 counterexample: for the input `[(H265, ts=0), (H265, ts=3000000)]` the
consecutive non-Stats pair is `t1 = 0`, `t2 = 3000000`, and the claim
predicts that the sample emitted for the `t1` frame has duration
`round((t2 - t1) * 1e-6) = 3`.  The code instead attaches each delta to the
*later* frame: the `t1` frame's sample (the first one, `start_time = 0`)
has duration `0`, and it is the `t2` frame's sample that carries `3`. -/
theorem C3_counterexample :
    selectTrack [some ⟨.H265, 0, []⟩, some ⟨.H265, 3000000, []⟩] =
      .ok (some (.hevcConfig, 0)) ∧
    (emitSamples [some ⟨.H265, 0, []⟩, some ⟨.H265, 3000000, []⟩] 0).map
        (fun s => (s.start_time, s.duration)) = [(0, 0), (3000000, 3)] ∧
    (round (((3000000 - 0 : ℕ) : ℚ) * (1 / 1000000))).toNat = 3 ∧
    (0 : Nat) ≠ 3 := by
  refine ⟨rfl, by decide, ?_, by decide⟩
  have hb := sampleDuration_eq_round 3000000
  have hv : sampleDuration 3000000 = 3 := by decide
  rw [hv] at hb
  have h30 : ((3000000 - 0 : ℕ) : ℚ) = ((3000000 : ℕ) : ℚ) := by norm_num
  rw [h30]
  rcases Nat.le_total
      (round (((3000000 : ℕ) : ℚ) * (1 / 1000000))).toNat 4294967295 with h | h
  · rw [min_eq_left h] at hb
    omega
  · rw [min_eq_right h] at hb
    omega

/-- C3 as amended: each emitted sample's start time is its own frame's raw
timestamp, and its *duration* is `round(delta * 1e-6)` (saturated at
`u32::MAX`) where `delta` is the gap from the *previous* non-Stats timestamp
(the track-selection baseline for the first sample) to this frame's
timestamp — i.e. for two consecutive non-Stats frames `t1` then `t2`, the
duration `round((t2 - t1) * 1e-6)` is carried by the sample of the `t2`
frame, not the `t1` frame. -/
theorem C3_amended_duration_on_later_frame (frames : List (Option RawFrame))
    (b : Nat) :
    (emitSamples frames b).map (fun s => (s.start_time, s.duration)) =
      ((videoTimestamps frames).zip (b :: videoTimestamps frames)).map
        (fun p =>
          (p.1, min (round (((p.1 - p.2 : ℕ) : ℚ) * (1 / 1000000))).toNat
            4294967295)) := by
  rw [emitSamples_timing]
  simp only [sampleDuration_eq_round]

/-- C4 counterexample: a frame of an unsupported format occurring *after* the
first video frame does not abort the conversion and is not skipped either —
it is emitted as a sample.  With input `[(H265, ts=0), (Other, ts=100)]` the
run returns `Ok` and the Other frame's payload is written as the second
sample. -/
theorem C4_counterexample :
    (convert_vraw_to_mp4 [some ⟨.H265, 0, []⟩, some ⟨.Other, 100, [7]⟩]
        (some "c4.mp4") [] "T").1 = .ok ∧
    ConvEvent.writeSample 1 ⟨100, 0, 0, false, [7]⟩ ∈
      (convert_vraw_to_mp4 [some ⟨.H265, 0, []⟩, some ⟨.Other, 100, [7]⟩]
        (some "c4.mp4") [] "T").2 := by
  decide

/-- C4 as amended: an unsupported-format frame aborts the run with the
unsupported-format error only when the track-selection scan reaches it, i.e.
when every earlier entry parses to a Stats frame (so it sits before the
first H264/H265 frame); the run then fails before any sample is written.
(After track selection such frames are emitted as samples instead.) -/
theorem C4_amended_unsupported_aborts_during_selection
    (pre rest : List (Option RawFrame)) (fr : RawFrame)
    (output : Option String) (components : List String) (now p : String)
    (hres : resolveOutput output components now = some p)
    (hfr : fr.format = .Other)
    (hpre : ∀ x ∈ pre, isStatsEntry x = true) :
    convert_vraw_to_mp4 (pre ++ some fr :: rest) output components now =
      (.err "VideoCaptureFormat not supported",
        [.openInput, .readIndex, .createOutput p, .muxStart]) := by
  have hpre' : ∀ x ∈ pre, ∃ g, x = some g ∧ g.format = .Stats := by
    intro x hx
    match x, hpre x hx with
    | some g, hg =>
      refine ⟨g, rfl, ?_⟩
      simpa [isStatsEntry] using hg
  have hsel := selectTrack_error_of_other pre rest fr hfr hpre'
  have hne : pre ++ some fr :: rest ≠ [] := by simp
  simp [convert_vraw_to_mp4, hres, hsel, List.isEmpty_eq_false.mpr hne]

/-- Witness for C4 (amended) at a concrete run: a Stats frame, then an
unsupported frame. -/
theorem C4_witness :
    convert_vraw_to_mp4 ([some ⟨.Stats, 0, []⟩] ++ some ⟨.Other, 5, []⟩ :: [])
        (some "w4.mp4") [] "T" =
      (.err "VideoCaptureFormat not supported",
        [.openInput, .readIndex, .createOutput "w4.mp4", .muxStart]) :=
  C4_amended_unsupported_aborts_during_selection [some ⟨.Stats, 0, []⟩] []
    ⟨.Other, 5, []⟩ (some "w4.mp4") [] "T" "w4.mp4" rfl rfl (by decide)

/-- C8 counterexample: for the input path `a/b/c/rec.vraw` the code places
the derived output in `a/b` — `ancestors().nth(2)`, one directory level
above the input file's own directory `a/b/c` — whereas the claim's "two
directory levels above the input file's own directory" is `a`. -/
theorem C8_counterexample :
    (deriveOutputPath ["a", "b", "c", "rec.vraw"] "2024-01-02T03_04_05").map
        Prod.fst = some ["a", "b"] ∧
    claimOutputDir ["a", "b", "c", "rec.vraw"] = ["a"] ∧
    some [("a" : String), "b"] ≠ some [("a" : String)] := by
  refine ⟨by decide, by decide, ?_⟩
  decide

/-- C8 as amended: when no output path is supplied, the derived file name is
the input's base name with its trailing `.vraw` suffix(es) stripped, an
underscore, the local-time `YYYY-MM-DDThh_mm_ss` stamp and `.mp4`, placed
*one* directory level above the input file's own directory (the input
path's second ancestor, `ancestors().nth(2)`); a path with no parent
components to ascend makes the derivation fail loudly (an `unwrap` panic),
never silently substituting a default. -/
theorem C8_amended_output_derivation (components : List String)
    (now base : String) (hbase : components.getLast? = some base) :
    (2 ≤ components.length →
      deriveOutputPath components now =
        some (components.dropLast.dropLast,
          trimEndMatches ".vraw" base.length base ++ "_" ++ now ++ ".mp4")) ∧
    (components.length < 2 → deriveOutputPath components now = none) := by
  unfold deriveOutputPath
  rw [hbase]
  constructor
  · intro h
    simp [h, trimEndMatches]
  · intro h
    simp [Nat.not_le.mpr h]

/-- Witness for C8 (amended): a two-component path derives into the second
ancestor (here the empty relative directory), and a lone file name panics. -/
theorem C8_witness :
    deriveOutputPath ["u", "r.vraw"] "T" = some ([], "r_T.mp4") ∧
    deriveOutputPath ["cap.vraw"] "T" = none :=
  ⟨(C8_amended_output_derivation ["u", "r.vraw"] "T" "r.vraw" rfl).1
      (by decide),
    (C8_amended_output_derivation ["cap.vraw"] "T" "cap.vraw" rfl).2
      (by decide)⟩
